import Mathlib

set_option maxRecDepth 10000

/-!
Verification of the voice-query-agent audio bridge and session layer.

The definitions below are shallow embeddings of the Python source:
  * `src/backend/audio_converter.py` (codec, resampler, format bridges),
  * `src/backend/call_session_manager.py` (session + registry),
  * `src/backend/virtual_client.py` (backend connection attempt).
Bytes are modelled as `Nat` values below 256, byte strings as `List Nat`,
16-bit PCM samples as `Int` values, and the fallible parts (exception
paths of the Python code) as `Option` branches.  The μ-law decode is
modelled at the uint8 dtype semantics the NumPy source actually computes
with (wraparound arithmetic); the resampler's float arithmetic is
idealised as exact rationals and is relied upon only where the float
computation is itself exact (see the doc comments there).
-/

/-- One sample of μ-law decode, from `AudioConverter.mulaw_to_pcm16`,
traced at the uint8 dtype the source computes with
(`np.frombuffer(..., dtype=np.uint8)`; every scalar operand — 0x55, 2,
33, 1, 4 — fits uint8, so no promotion occurs):

  * `biased = b ^ 0x55`; sign bit 7, exponent bits 6-4, mantissa bits 3-0;
  * `exponent - 1` is uint8 arithmetic, so exponent 0 wraps to 255, and
    `np.maximum(0, ·)` keeps it (`max 0` is the identity on uint8);
  * the uint8 left shift truncates mod 256, and a shift by at least the
    8-bit width leaves only zero low bits (the observed C/x86 behaviour
    NumPy compiles to), so exponent 0 yields 0;
  * `np.where(sign, -linear, linear)` negates mod 256;
  * `linear * 4` again wraps mod 256;
  * the resulting values are 0..255, so `np.clip(..., -32768, 32767)` is
    the identity and `astype(np.int16)` keeps the value.

This is the NumPy 1.x reading.  Under NumPy 2.x the `np.clip` call
instead raises `OverflowError` (the Python bound -32768 does not fit
uint8) and the caller's zero fallback runs; where a claim below depends
on decoded values, the two readings are compared in its record. -/
def decodeSample (b : Nat) : Int :=
  let v := b ^^^ 0x55
  let e := (v &&& 0x70) >>> 4
  let m := v &&& 0x0F
  let shift := max 0 ((e + 255) % 256)
  let lin := if shift < 8 then ((m * 2 + 33) <<< shift) % 256 else 0
  let signedLin := if v &&& 0x80 ≠ 0 then (256 - lin) % 256 else lin
  max (-32768) (min 32767 ((signedLin * 4 % 256 : Nat) : Int))

/-- One sample of μ-law encode, from `AudioConverter.pcm16_to_mulaw`:
absolute value (taken after a widening cast in the source, so exact),
compress by dividing by 256 and clipping to 7 bits, OR in the sign bit,
XOR in the bias. -/
def encodeSample (x : Int) : Nat :=
  let compressed := min (x.natAbs / 256) 127
  let b := if x < 0 then compressed ||| 0x80 else compressed
  b ^^^ 0x55

/-- Little-endian signed 16-bit view of a byte string
(`np.frombuffer(..., dtype=np.int16)`); `none` models the `ValueError`
NumPy raises when the length is not a multiple of two. -/
def bytesToInt16 : List Nat → Option (List Int)
  | [] => some []
  | [_] => none
  | lo :: hi :: rest =>
    match bytesToInt16 rest with
    | none => none
    | some xs =>
      let u := lo + 256 * hi
      some ((if u < 32768 then (u : Int) else (u : Int) - 65536) :: xs)

/-- Little-endian byte serialisation of signed 16-bit samples
(`ndarray.astype(np.int16).tobytes()`); values are reduced mod 2^16. -/
def int16ToBytes (xs : List Int) : List Nat :=
  (xs.map (fun x => let u := (x % 65536).toNat; [u % 256, u / 256])).flatten

/-- Numeric body of `AudioConverter.mulaw_to_pcm16` inside the `try`,
at the NumPy 1.x reading: `np.frombuffer` with `dtype=np.uint8` accepts
every byte string and every elementwise operation completes (with the
uint8 wraparound captured in `decodeSample`), so the body succeeds.
Under NumPy 2.x the final `np.clip` raises instead and the `except`
fallback of `len * 2` zero bytes runs — same output length, and the very
same bytes on the all-silence inputs the claims below evaluate. -/
def mulawDecodeBody (bs : List Nat) : Option (List Nat) :=
  some (int16ToBytes (bs.map decodeSample))

/-- `AudioConverter.mulaw_to_pcm16`: empty input short-circuits to empty
output; otherwise the numeric body runs, with the `except` fallback of
`len * 2` zero bytes kept from the source. -/
def mulaw_to_pcm16 (bs : List Nat) : List Nat :=
  if bs = [] then []
  else
    match mulawDecodeBody bs with
    | some out => out
    | none => List.replicate (bs.length * 2) 0

/-- Numeric body of `AudioConverter.pcm16_to_mulaw` inside the `try`:
fails exactly when `np.frombuffer(..., dtype=np.int16)` rejects an
odd-length byte string. -/
def pcmEncodeBody (bs : List Nat) : Option (List Nat) :=
  match bytesToInt16 bs with
  | none => none
  | some xs => some (xs.map encodeSample)

/-- `AudioConverter.pcm16_to_mulaw`: empty input short-circuits to empty
output; a failing numeric body degrades to the `except` fallback of
`len // 2` bias bytes `0x55`. -/
def pcm16_to_mulaw (bs : List Nat) : List Nat :=
  if bs = [] then []
  else
    match pcmEncodeBody bs with
    | some out => out
    | none => List.replicate (bs.length / 2) 0x55

/-- Exact value of `np.interp` at the query position `num/den` (with
`den > 0`) against samples `fp` sitting at integer positions `0..n-1`,
returned as an exact fraction (numerator, denominator).  Positions at or
beyond the last sample give the last sample; otherwise linear
interpolation between the two neighbouring samples. -/
def interpFrac (fp : List Int) (num den : Nat) : Int × Nat :=
  let n := fp.length
  if (n - 1) * den ≤ num then (fp.getD (n - 1) 0, 1)
  else
    let j := num / den
    let r := num % den
    (fp.getD j 0 * den + (fp.getD (j + 1) 0 - fp.getD j 0) * r, den)

/-- `np.clip(v, -32768, 32767).astype(np.int16)` applied to the exact
fraction `p/q` (`q > 0`): clamp into the signed 16-bit range, then the
cast truncates toward zero. -/
def clampTruncFrac (p : Int) (q : Nat) : Int :=
  if p ≤ -32768 * q then -32768
  else if 32767 * q ≤ p then 32767
  else Int.tdiv p q

/-- Sample-level body of `AudioConverter.resample_audio`:
`new_length = max(1, int(len * to_rate / from_rate))`, query positions
`np.linspace(0, len-1, new_length)`, `np.interp` against the original
samples, clip and cast back to int16.  The float64/float32 computation is
idealised here as exact rational arithmetic, which the real float path
does not match at every rate pair (`int(len * ratio)` can truncate below
the exact floor, e.g. 98 samples at rates 49 to 1 give 1 output, not 2,
because `98 * float64(1/49)` rounds to just below 2).  No
general resampler claim is settled against this definition; the claims
below exercise it only where the float computation is exact — the ratio
2.0 (a power of two) applied to an all-zero sample vector, for which
`np.interp` returns exact zeros at any positions. -/
def resampleSamples (s : List Int) (fromRate toRate : Nat) : List Int :=
  let n := s.length
  let newLen := max 1 (n * toRate / fromRate)
  let den := if newLen = 1 then 1 else newLen - 1
  (List.range newLen).map (fun i =>
    let f := interpFrac s ((n - 1) * i) den
    clampTruncFrac f.1 f.2)

/-- `AudioConverter.resample_audio` at byte level with the default
`sample_width = 2` (the only width the bridges use): empty input or equal
rates return the input unchanged; an odd-length buffer makes
`np.frombuffer` raise and the `except` returns the input; a zero source
rate raises `ZeroDivisionError` with the same fallback.  The resampling
branch inherits the exact-arithmetic idealisation of `resampleSamples`
and is relied upon below only where the float path is exact. -/
def resample_bytes (bs : List Nat) (fromRate toRate : Nat) : List Nat :=
  if bs = [] ∨ fromRate = toRate then bs
  else
    match bytesToInt16 bs with
    | none => bs
    | some s =>
      if s = [] then bs
      else if fromRate = 0 then bs
      else int16ToBytes (resampleSamples s fromRate toRate)

/-- The standard base64 alphabet, by sextet value. -/
def b64Char (n : Nat) : Char :=
  if n < 26 then Char.ofNat (65 + n)
  else if n < 52 then Char.ofNat (97 + (n - 26))
  else if n < 62 then Char.ofNat (48 + (n - 52))
  else if n = 62 then '+' else '/'

/-- Sextet value of one base64 character; `none` for characters outside
the alphabet (including the padding character). -/
def b64Val (c : Char) : Option Nat :=
  let n := c.toNat
  if 65 ≤ n ∧ n ≤ 90 then some (n - 65)
  else if 97 ≤ n ∧ n ≤ 122 then some (26 + (n - 97))
  else if 48 ≤ n ∧ n ≤ 57 then some (52 + (n - 48))
  else if n = 43 then some 62
  else if n = 47 then some 63
  else none

/-- `base64.b64encode` on a byte string: groups of three bytes become four
alphabet characters; a trailing one- or two-byte group is padded with
`=`. -/
def b64encodeBytes : List Nat → List Char
  | [] => []
  | [a] => [b64Char (a / 4), b64Char (a % 4 * 16), '=', '=']
  | [a, b] => [b64Char (a / 4), b64Char (a % 4 * 16 + b / 16), b64Char (b % 16 * 4), '=']
  | a :: b :: c :: rest =>
    b64Char (a / 4) :: b64Char (a % 4 * 16 + b / 16) :: b64Char (b % 16 * 4 + c / 64) ::
      b64Char (c % 64) :: b64encodeBytes rest

/-- `base64.b64decode` on a character list; `none` models the
`binascii.Error` raised for malformed input (bad length, bad padding or a
character outside the alphabet). -/
def b64decodeChars : List Char → Option (List Nat)
  | [] => some []
  | c1 :: c2 :: c3 :: c4 :: rest =>
    if rest = [] ∧ c3 = '=' ∧ c4 = '=' then
      match b64Val c1, b64Val c2 with
      | some v1, some v2 => some [v1 * 4 + v2 / 16]
      | _, _ => none
    else if rest = [] ∧ c4 = '=' then
      match b64Val c1, b64Val c2, b64Val c3 with
      | some v1, some v2, some v3 => some [v1 * 4 + v2 / 16, v2 % 16 * 16 + v3 / 4]
      | _, _, _ => none
    else
      match b64Val c1, b64Val c2, b64Val c3, b64Val c4, b64decodeChars rest with
      | some v1, some v2, some v3, some v4, some bs =>
        some ((v1 * 4 + v2 / 16) :: (v2 % 16 * 16 + v3 / 4) :: (v3 % 4 * 64 + v4) :: bs)
      | _, _, _, _, _ => none
  | _ => none

/-- `base64.b64encode(...).decode('utf-8')` as a Lean `String`. -/
def b64encodeString (bs : List Nat) : String :=
  String.mk (b64encodeBytes bs)

/-- `base64.b64decode` on a Lean `String`. -/
def b64decodeString (s : String) : Option (List Nat) :=
  b64decodeChars s.data

/-- `AudioConverter.twilio_to_gemini_format`: base64 μ-law at 8 kHz in,
base64 PCM16 at 16 kHz out; empty input and every failure yield the
empty-string sentinel. -/
def twilio_to_gemini_format (s : String) : String :=
  if s = "" then ""
  else
    match b64decodeString s with
    | none => ""
    | some mulawData =>
      b64encodeString (resample_bytes (mulaw_to_pcm16 mulawData) 8000 16000)

/-- `AudioConverter.gemini_to_twilio_format`: base64 PCM16 at 24 kHz in,
base64 μ-law at 8 kHz out; empty input and every failure yield the
empty-string sentinel. -/
def gemini_to_twilio_format (s : String) : String :=
  if s = "" then ""
  else
    match b64decodeString s with
    | none => ""
    | some pcmData =>
      b64encodeString (pcm16_to_mulaw (resample_bytes pcmData 24000 8000))

/-- `AudioConverter.create_gemini_audio_message`, reduced to the one field
the claims inspect: the base64 payload placed in the single media chunk. -/
def create_gemini_audio_message (base64Pcm : String) : String :=
  base64Pcm

/-- Connection-related state touched by `CallSession.start_gemini_connection`
and `VirtualWebSocketClient.connect`: the session's `connected` flag, the
client's `connected` flag, and how often the session's error listener
(`on_error`, wired to `CallSession.handle_error`) has been invoked. -/
structure ConnState where
  sessionConnected : Bool
  clientConnected : Bool
  onErrorCalls : Nat
  deriving Repr, DecidableEq

/-- State after `CallSession.__init__`: `connected = False`, no client yet,
no error-listener invocation. -/
def initConnState : ConnState :=
  { sessionConnected := false, clientConnected := false, onErrorCalls := 0 }

/-- `CallSession.handle_error`: logs and sets the session's `connected`
flag to `False`. -/
def handle_error (st : ConnState) : ConnState :=
  { st with sessionConnected := false }

/-- One invocation of the wired `on_error` listener: runs
`CallSession.handle_error` and is counted. -/
def invokeOnError (st : ConnState) : ConnState :=
  let st1 := handle_error st
  { st1 with onErrorCalls := st1.onErrorCalls + 1 }

/-- `VirtualWebSocketClient.connect`, parameterised by whether
`websockets.connect` succeeds.  On success the client's flag is set (the
setup message and listener task do not touch the modelled state); on
failure the internal `except` sets the client's flag to `False` and
invokes `on_error` once.  The exception never propagates. -/
def vcConnect (connectSucceeds : Bool) (st : ConnState) : ConnState :=
  if connectSucceeds then { st with clientConnected := true }
  else invokeOnError { st with clientConnected := false }

/-- `CallSession.start_gemini_connection`: constructs the virtual client
(whose `connected` starts `False`), wires the callbacks, awaits
`connect` — which never raises, since it catches internally — and then
unconditionally sets the session's `connected` flag to `True`.  The
`except` branch that would set it to `False` is unreachable. -/
def start_gemini_connection (connectSucceeds : Bool) (st : ConnState) : ConnState :=
  let st1 := { st with clientConnected := false }
  let st2 := vcConnect connectSucceeds st1
  { st2 with sessionConnected := true }

/-- A stored `CallSession`, with the fields the registry claims observe. -/
structure CallSessionR where
  callSid : String
  streamSid : String
  conn : ConnState
  deriving Repr, DecidableEq

/-- The session object as stored by `CallSessionManager.create_session`:
freshly constructed, then driven through `start_gemini_connection`. -/
def sessionAfterStart (connectSucceeds : Bool) (callSid streamSid : String) : CallSessionR :=
  { callSid := callSid, streamSid := streamSid,
    conn := start_gemini_connection connectSucceeds initConnState }

/-- `CallSessionManager.active_sessions`: a Python dict from stream id to
session, modelled as an association list with unique keys. -/
abbrev Registry := List (String × CallSessionR)

/-- Python dict lookup `d.get(k)`. -/
def dictGet (m : Registry) (k : String) : Option CallSessionR :=
  (m.find? (fun p => p.1 == k)).map (fun p => p.2)

/-- Python dict assignment `d[k] = v`: overwrite in place when the key is
present, append otherwise. -/
def dictSet (m : Registry) (k : String) (v : CallSessionR) : Registry :=
  if (m.find? (fun p => p.1 == k)).isSome then
    m.map (fun p => if p.1 == k then (k, v) else p)
  else m ++ [(k, v)]

/-- Python `del d[k]`. -/
def dictDel (m : Registry) (k : String) : Registry :=
  m.filter (fun p => !(p.1 == k))

/-- `CallSessionManager.create_session`: build the session, start its
backend connection, store it under the stream id, and return it. -/
def create_session (connectSucceeds : Bool) (m : Registry) (callSid streamSid : String) :
    Registry × CallSessionR :=
  let s := sessionAfterStart connectSucceeds callSid streamSid
  (dictSet m streamSid s, s)

/-- `CallSessionManager.get_session`: read-only lookup. -/
def get_session (m : Registry) (streamSid : String) : Option CallSessionR :=
  dictGet m streamSid

/-- `CallSessionManager.end_session`: when the stream id is present, clean
up that session and delete its entry; otherwise do nothing.  The cleanup
mutates only the removed session object, so the registry effect is the
deletion alone. -/
def end_session (m : Registry) (streamSid : String) : Registry :=
  match dictGet m streamSid with
  | some _ => dictDel m streamSid
  | none => m

/-- The decode algorithm as claim C5 (and spec §4.1) states it, with the
bit fields written arithmetically over unbounded integers: invert the
bias with XOR 0x55; sign is bit 7, exponent bits 6-4, mantissa
bits 3-0; `magnitude = (mantissa*2+33) << max(0, exponent-1)`; apply the
sign, multiply by 4 and clamp to the signed 16-bit range.  This is what
the source's own expressions spell out textually; the program's uint8
dtype arithmetic (`decodeSample`) computes something else. -/
def decodeSampleSpec (b : Nat) : Int :=
  let v := b ^^^ 0x55
  let sign := v / 128 % 2 = 1
  let e := v / 16 % 8
  let m := v % 16
  let mag : Nat := (m * 2 + 33) * 2 ^ (max 0 ((e : Int) - 1)).toNat
  let signedMag : Int := if sign then -(mag : Int) else (mag : Int)
  max (-32768) (min 32767 (signedMag * 4))

/-- The concrete inbound payload of claim C3: the base64 encoding of 160
bytes of the companded value 0x55. -/
def c3Input : String :=
  String.mk (List.replicate 213 'V' ++ ['Q', '=', '='])

/-! ### Helper lemmas -/

theorem int16ToBytes_length (xs : List Int) : (int16ToBytes xs).length = 2 * xs.length := by
  induction xs with
  | nil => rfl
  | cons x t ih =>
    simp only [int16ToBytes, List.map_cons, List.flatten_cons, List.length_append,
      List.length_cons, List.length_nil] at ih ⊢
    omega

theorem int16ToBytes_ne_nil {xs : List Int} (h : xs ≠ []) : int16ToBytes xs ≠ [] := by
  intro hc
  have h1 := int16ToBytes_length xs
  rw [hc] at h1
  simp only [List.length_nil] at h1
  have h2 : xs.length ≠ 0 := fun h0 => h (List.eq_nil_of_length_eq_zero h0)
  omega

theorem bytesToInt16_int16ToBytes (xs : List Int)
    (h : ∀ x ∈ xs, -32768 ≤ x ∧ x ≤ 32767) :
    bytesToInt16 (int16ToBytes xs) = some xs := by
  induction xs with
  | nil => rfl
  | cons x t ih =>
    have hx := h x (by simp)
    have ht := ih (fun y hy => h y (by simp [hy]))
    show bytesToInt16
        (((x % 65536).toNat % 256) :: ((x % 65536).toNat / 256) :: int16ToBytes t) =
      some (x :: t)
    simp only [bytesToInt16, ht, Option.some.injEq, List.cons.injEq, and_true]
    have hval : (x % 65536).toNat % 256 + 256 * ((x % 65536).toNat / 256) =
        (x % 65536).toNat := Nat.mod_add_div _ _
    rw [hval]
    split <;> omega

theorem bytesToInt16_odd : ∀ bs : List Nat, bs.length % 2 = 1 → bytesToInt16 bs = none
  | [], h => by simp at h
  | [_], _ => rfl
  | _ :: _ :: rest, h => by
    have hr : rest.length % 2 = 1 := by
      simp only [List.length_cons] at h
      omega
    have := bytesToInt16_odd rest hr
    simp [bytesToInt16, this]

/-! ### The claims -/

/-- C8: every conversion stage maps empty input to empty output — both
codec directions, the resampler at any pair of rates, and both format
bridges on the empty string. -/
theorem C8_empty_inputs :
    mulaw_to_pcm16 [] = [] ∧ pcm16_to_mulaw [] = [] ∧
    (∀ r1 r2 : Nat, resample_bytes [] r1 r2 = []) ∧
    twilio_to_gemini_format "" = "" ∧ gemini_to_twilio_format "" = "" := by
  refine ⟨rfl, rfl, ?_, rfl, rfl⟩
  intro r1 r2
  simp [resample_bytes]

/-- C10: `mulaw_to_pcm16` returns exactly two output bytes per input
byte, for every input byte string (the numeric path always succeeds, and
the textual fallback path has the same length). -/
theorem C10_decode_length : ∀ bs : List Nat, (mulaw_to_pcm16 bs).length = 2 * bs.length := by
  intro bs
  by_cases h : bs = []
  · subst h; rfl
  · simp only [mulaw_to_pcm16, h, if_false, mulawDecodeBody]
    rw [int16ToBytes_length, List.length_map]

/-- C7: a wrong-width (odd-length) byte string never makes the codec
raise: `pcm16_to_mulaw` degrades to the deterministic silence fallback of
one bias byte 0x55 per two input bytes, while `mulaw_to_pcm16` (for which
every length is well-formed) still returns a deterministic result of two
output bytes per input byte — its normal uint8 path here, and the
equal-length zero fallback under the NumPy 2.x reading. -/
theorem C7_wrong_width_fallback : ∀ bs : List Nat, bs.length % 2 = 1 →
    pcm16_to_mulaw bs = List.replicate (bs.length / 2) 0x55 ∧
    mulaw_to_pcm16 bs = int16ToBytes (bs.map decodeSample) ∧
    (mulaw_to_pcm16 bs).length = 2 * bs.length := by
  intro bs h
  have hne : bs ≠ [] := by
    intro hc; rw [hc] at h; simp at h
  refine ⟨?_, ?_, ?_⟩
  · simp only [pcm16_to_mulaw, hne, if_false, pcmEncodeBody, bytesToInt16_odd bs h]
  · simp only [mulaw_to_pcm16, hne, if_false, mulawDecodeBody]
  · simp only [mulaw_to_pcm16, hne, if_false, mulawDecodeBody]
    rw [int16ToBytes_length, List.length_map]

/-- C7 witness: the three-byte input `[0,0,0]` hits the fallback and
yields one silence byte. -/
theorem C7_wrong_width_fallback_witness :
    ([0, 0, 0] : List Nat).length % 2 = 1 ∧
    pcm16_to_mulaw [0, 0, 0] = List.replicate 1 0x55 :=
  ⟨by decide, (C7_wrong_width_fallback [0, 0, 0] (by decide)).1⟩

/-- C1: evaluation of the session start with a failing backend connect.
The error listener is invoked exactly once (as the claim says), but the
session's `connected` flag ends up `true`, not `false`:
`VirtualWebSocketClient.connect` swallows the exception, so
`start_gemini_connection` resumes and unconditionally sets
`connected = True`, overwriting the `False` the error listener had just
written. -/
theorem C1_connect_failure_eval :
    (start_gemini_connection false initConnState).sessionConnected = true ∧
    (start_gemini_connection false initConnState).onErrorCalls = 1 ∧
    (start_gemini_connection false initConnState).clientConnected = false := by
  decide

/-- C4: silence maps to silence in both codec directions — encoding the
zero PCM16 sample yields the companded silence byte 0x55, and decoding
0x55 yields exactly the zero PCM16 sample (exponent 0 makes the uint8
shift count wrap to 255, so the decoded magnitude is 0; the NumPy 2.x
zero fallback produces the same two zero bytes). -/
theorem C4_silence_both_directions :
    pcm16_to_mulaw (int16ToBytes [(0 : Int)]) = [0x55] ∧
    mulaw_to_pcm16 [0x55] = int16ToBytes [(0 : Int)] := by decide

/-- C3: feeding the base64 encoding of 160 bytes 0x55 into the inbound
bridge yields a non-empty base64 string whose payload decodes to exactly
320 little-endian PCM16 samples, each exactly zero (the companded
silence byte decodes to 0, and resampling the zero vector at the exact
power-of-two ratio 2.0 yields zeros). -/
theorem C3_inbound_silence_scenario :
    b64encodeString (List.replicate 160 0x55) = c3Input ∧
    twilio_to_gemini_format c3Input ≠ "" ∧
    (b64decodeString (twilio_to_gemini_format c3Input)).bind bytesToInt16 =
      some (List.replicate 320 (0 : Int)) := by decide

/-- C5: the program does not decode by the claimed algorithm.  At the
input byte 0x00 the claimed algorithm (bias inversion, field extraction,
`(mantissa*2+33) << max(0, exponent-1)`, sign, scale by 4, clamp) gives
the sample 2752, but the uint8 pipeline the code runs gives 192
(`(43 << 4) mod 256 = 176`, then `176 * 4 mod 256 = 192`); under the
NumPy 2.x reading the zero fallback gives 0.  Either way the output
differs from the claimed 2752. -/
theorem C5_decode_algorithm_divergence :
    decodeSampleSpec 0x00 = 2752 ∧
    decodeSample 0x00 = 192 ∧
    mulaw_to_pcm16 [0x00] ≠ int16ToBytes [decodeSampleSpec 0x00] ∧
    List.replicate (2 * 1) 0 ≠ int16ToBytes [decodeSampleSpec 0x00] := by decide

theorem find?_overwrite (m : Registry) (k : String) (v : CallSessionR) :
    (m.map (fun p => if p.1 == k then (k, v) else p)).find? (fun p => p.1 == k) =
      if (m.find? (fun p => p.1 == k)).isSome then some (k, v) else none := by
  induction m with
  | nil => rfl
  | cons hd t ih =>
    cases hbk : hd.1 == k with
    | true =>
      rw [List.map_cons, if_pos hbk]
      simp only [List.find?, beq_self_eq_true, hbk]
      simp
    | false =>
      rw [List.map_cons, if_neg (by simp [hbk])]
      simp only [List.find?, hbk, ih]

theorem dictGet_dictSet (m : Registry) (k : String) (v : CallSessionR) :
    dictGet (dictSet m k v) k = some v := by
  unfold dictGet dictSet
  by_cases hs : (m.find? (fun p => p.1 == k)).isSome
  · rw [if_pos hs, find?_overwrite, if_pos hs]
    rfl
  · rw [if_neg hs, List.find?_append, Option.not_isSome_iff_eq_none.mp hs]
    simp [List.find?_cons]

theorem find?_dictDel (m : Registry) (k : String) :
    (dictDel m k).find? (fun p => p.1 == k) = none := by
  induction m with
  | nil => rfl
  | cons hd t ih =>
    by_cases hk : hd.1 == k
    · simp [dictDel, List.filter_cons, hk, ih]
    · simp only [dictDel, List.filter_cons, hk] at ih ⊢
      simp [List.find?_cons, hk, ih]

theorem get_end_session (m : Registry) (k : String) :
    get_session (end_session m k) k = none := by
  unfold end_session
  cases h : dictGet m k with
  | none => exact h
  | some s =>
    show dictGet (dictDel m k) k = none
    unfold dictGet
    rw [find?_dictDel]
    rfl

theorem end_session_not_found (m : Registry) (k : String)
    (h : get_session m k = none) : end_session m k = m := by
  unfold end_session
  rw [show dictGet m k = none from h]

/-- C9: after `create_session` the stored session is returned by
`get_session` under its stream id; after `end_session` the lookup is
`none`; ending an absent stream id leaves the registry unchanged, and
`end_session` is idempotent. -/
theorem C9_registry_ops :
    (∀ (ok : Bool) (m : Registry) (callSid streamSid : String),
      get_session (create_session ok m callSid streamSid).1 streamSid =
        some (create_session ok m callSid streamSid).2) ∧
    (∀ (m : Registry) (k : String), get_session (end_session m k) k = none) ∧
    (∀ (m : Registry) (k : String), get_session m k = none → end_session m k = m) ∧
    (∀ (m : Registry) (k : String), end_session (end_session m k) k = end_session m k) := by
  refine ⟨?_, get_end_session, end_session_not_found, ?_⟩
  · intro ok m callSid streamSid
    exact dictGet_dictSet m streamSid (sessionAfterStart ok callSid streamSid)
  · intro m k
    exact end_session_not_found _ _ (get_end_session m k)

theorem decodeSample_bounds : ∀ b < 256, 0 ≤ decodeSample b ∧ decodeSample b ≤ 255 := by
  decide

theorem encode_byte_lt : ∀ c < 128,
    c ^^^ 0x55 < 256 ∧ (c ||| 0x80) ^^^ 0x55 < 256 := by decide

theorem encodeSample_lt (x : Int) : encodeSample x < 256 := by
  have hc : min (x.natAbs / 256) 127 < 128 := by omega
  have hb := encode_byte_lt _ hc
  by_cases hx : x < 0
  · simp only [encodeSample, if_pos hx]
    exact hb.2
  · simp only [encodeSample, if_neg hx]
    exact hb.1

/-- C2 counterexample: the round trip preserves neither sign nor
magnitude ordering.  The negative sample -4096 round-trips to the
nonnegative value 124 (the uint8 `np.where(sign, -linear, linear)` wraps
instead of negating); and `|8192| ≥ |4096|` while the round trip of 8192
has magnitude 8 against 132 for 4096 (the uint8 shift wraps mod 256). -/
theorem C2_counterexample :
    ((-4096 : Int) < 0 ∧ 0 ≤ decodeSample (encodeSample (-4096 : Int))) ∧
    ((4096 : Int).natAbs ≤ (8192 : Int).natAbs ∧
      (decodeSample (encodeSample (8192 : Int))).natAbs <
        (decodeSample (encodeSample (4096 : Int))).natAbs) := by decide

/-- C2 amended: what the round trip actually guarantees — for every
16-bit sample, decode∘encode lands in the near-silent band `[0, 255]`
(so it is never negative: sign is preserved for no negative input, and
magnitude ordering is not preserved in general), and the zero sample
round-trips to exactly 0. -/
theorem C2_roundtrip_amended : ∀ x : Int, -32768 ≤ x → x ≤ 32767 →
    (0 ≤ decodeSample (encodeSample x) ∧ decodeSample (encodeSample x) ≤ 255) ∧
    decodeSample (encodeSample 0) = 0 := by
  intro x _ _
  exact ⟨decodeSample_bounds _ (encodeSample_lt x), by decide⟩

/-- C2 witness: the amended statement evaluated at the sample 12345. -/
theorem C2_roundtrip_amended_witness :
    0 ≤ decodeSample (encodeSample (12345 : Int)) ∧
    decodeSample (encodeSample (12345 : Int)) ≤ 255 :=
  ⟨(C2_roundtrip_amended 12345 (by decide) (by decide)).1.1,
   (C2_roundtrip_amended 12345 (by decide) (by decide)).1.2⟩

/-- C9 witness: the registry laws evaluated on a concrete one-entry
registry. -/
theorem C9_registry_ops_witness :
    get_session (create_session true [] "call1" "stream1").1 "stream1" =
      some (create_session true [] "call1" "stream1").2 ∧
    get_session (end_session (create_session true [] "call1" "stream1").1 "stream1") "stream1" =
      none ∧
    end_session [] "stream1" = [] :=
  ⟨C9_registry_ops.1 true [] "call1" "stream1",
   C9_registry_ops.2.1 _ "stream1",
   C9_registry_ops.2.2.1 [] "stream1" (by decide)⟩

